import Mathlib

/-!
Verification of the attendance reconciliation engine of the
class-attendance repository.

The development shallow-embeds the decision logic of
`FaceRecognitionSystem.process_class_photo` (src/utils/face_utils.py,
lines 141-263), the roster persistence of `AttendanceManager`
(src/utils/db_utils.py) and the summary extraction of the upload handler
(src/app.py, lines 73-87).

Modelling conventions:
* Embeddings themselves never matter to the decision logic: the code only
  consumes the two external detector primitives
  `face_recognition.compare_faces(known, enc, tolerance)` and
  `face_recognition.face_distance(known, enc)`, and the first is, per the
  detector's contract, pointwise `distance ≤ tolerance`.  A `Detection`
  therefore carries, besides its bounding box, the outcome of the external
  comparison for this face: `none` when the external call raises, or the
  list of distances to the gallery embeddings (rationals standing for the
  detector's floats).
* The gallery is the parallel pair of name and embedding lists held in
  `known_face_names` / `known_face_encodings`; since the embeddings only
  enter through the distances above, a gallery is its list of names, and a
  detection's distance list is indexed like the gallery.
* Python `//` on ints is flooring division, embedded as `Int.fdiv`.
* `distance < 50` with `distance = (dx**2 + dy**2) ** 0.5` on integer
  centers is equivalent to `dx^2 + dy^2 < 2500`, which is how the
  duplicate test is embedded (exactly, since squaring is monotone on
  nonnegative reals and 50^2 = 2500).
* Python's `list.sort(key=...)` is a stable sort; it is embedded as
  `List.mergeSort`, which is stable in the same sense.
-/

namespace ClassAttendance

/-- A face location as returned by `face_recognition.face_locations`:
the tuple `(top, right, bottom, left)` in pixel coordinates. -/
structure Box where
  top : ℤ
  right : ℤ
  bottom : ℤ
  left : ℤ
deriving DecidableEq

/-- The center of a face location, as computed at face_utils.py lines
183-186: `((loc[0] + loc[2]) // 2, (loc[1] + loc[3]) // 2)`. -/
def Box.center (b : Box) : ℤ × ℤ :=
  ((b.top + b.bottom).fdiv 2, (b.right + b.left).fdiv 2)

/-- The squared Euclidean distance between two face centers
(face_utils.py line 188 computes its square root; the comparison with 50
at line 191 is equivalent to comparing this value with 2500). -/
def centerDistSq (b1 b2 : Box) : ℤ :=
  (b1.center.1 - b2.center.1) ^ 2 + (b1.center.2 - b2.center.2) ^ 2

/-- The duplicate test of face_utils.py lines 181-194: the current face is
a duplicate when some already `processed` location's center lies strictly
within 50 pixels of its center. -/
def isDuplicate (b : Box) (processed : List Box) : Bool :=
  processed.any (fun p => centerDistSq b p < 2500)

/-- One detected face: its bounding box, paired with the outcome of the
external comparison primitives for this face.  `none` embeds the external
call raising an exception (caught at face_utils.py line 239); `some ds`
gives `face_recognition.face_distance(known_face_encodings, enc)`, one
rational distance per gallery entry. -/
structure Detection where
  box : Box
  cmp : Option (List ℚ)
deriving DecidableEq

/-- The four status strings process_class_photo puts in records. -/
inductive Status where
  | Present
  | Absent
  | Unknown
  | Error
deriving DecidableEq

/-- The status string written to a record, as it appears in the CSV. -/
def statusStr : Status → String
  | .Present => "Present"
  | .Absent => "Absent"
  | .Unknown => "Unknown"
  | .Error => "Error"

/-- The confidence field of a record.  `high s` stands for the string
`"High ({s:.2f})"` (face_utils.py line 217), `low s` for
`"Low ({s:.2f})"` (line 223), `lowNoScore` for the bare `"Low"`
(line 229) and `na` for `"N/A"` (lines 244 and 254); the numeric payload
is kept exactly instead of as two-decimal text. -/
inductive Confidence where
  | high (score : ℚ)
  | low (score : ℚ)
  | lowNoScore
  | na
deriving DecidableEq

/-- The `attendance_summary` dictionary the upload handler looks for
(app.py lines 77, 83-88). -/
structure AttendanceSummary where
  present : Nat
  absent : Nat
  unknown : Nat
  errors : Nat
  total_students : Nat
deriving DecidableEq

/-- The `processing_summary` dictionary the upload handler looks for
(app.py lines 78, 87, 110-116). -/
structure ProcessingSummary where
  total_faces_detected : Nat
  warnings : List String
  errors : List String
deriving DecidableEq

/-- The `summary_info` value the upload handler reads from the first
attendance record (app.py line 76). -/
structure SummaryInfo where
  attendance_summary : AttendanceSummary
  processing_summary : ProcessingSummary
deriving DecidableEq

/-- One attendance record, the dictionary built at face_utils.py lines
232-237, 241-246 and 251-256.  Those dictionaries carry exactly the keys
`name`, `status`, `confidence` and `face_location`; the optional
`summary_info` field embeds the (possibly absent) key of that name that
app.py line 76 reads with `.get('summary_info', {})` — `none` is an
absent key. -/
structure AttendanceRecord where
  name : String
  status : Status
  confidence : Confidence
  face_location : Option Box
  summary_info : Option SummaryInfo
deriving DecidableEq

/-- `numpy.argmin` over a distance list (face_utils.py line 209): index of
the first occurrence of the minimal element.  `best` and `bestIdx` track
the minimum seen so far, `cur` the index of the head of the remaining
list. -/
def argminAux (best : ℚ) (bestIdx cur : Nat) : List ℚ → Nat
  | [] => bestIdx
  | x :: xs => if x < best then argminAux x cur (cur + 1) xs else argminAux best bestIdx (cur + 1) xs

/-- `numpy.argmin` of a list; 0 on the empty list (never hit: the code
only calls it when some entry passed the tolerance test). -/
def argminIdx : List ℚ → Nat
  | [] => 0
  | x :: xs => argminAux x 0 1 xs

/-- The mutable state of the per-face loop of face_utils.py lines
170-246: `attendance_results`, `recognized_students` and
`processed_faces`. -/
structure LoopState where
  results : List AttendanceRecord
  recognized : List String
  processed : List Box
deriving DecidableEq

/-- The record appended when processing one face raises (face_utils.py
lines 241-246). -/
def errorRecord (i : Nat) (b : Box) : AttendanceRecord :=
  ⟨"Error " ++ toString (i + 1), .Error, .na, some b, none⟩

/-- The body of the per-face loop (face_utils.py lines 176-246) for the
face with enumerate-index `i`.  First the duplicate test against
`processed_faces` (lines 181-197); then the coarse
`compare_faces(..., tolerance=0.5)` test (lines 200-206); on a pass, the
globally minimum-distance entry via `argmin` with confidence
`1 - distance` and acceptance threshold `0.6` (lines 207-224); otherwise
the synthetic unknown record (lines 226-229).  A raising comparison
(`cmp = none`) is caught into an Error record (lines 239-246).  Only the
accepted Present branch extends `recognized_students` and
`processed_faces` (lines 218-219). -/
def faceStep (g : List String) (s : LoopState) (i : Nat) (d : Detection) : LoopState :=
  if isDuplicate d.box s.processed then s
  else
    match d.cmp with
    | none => { s with results := s.results ++ [errorRecord i d.box] }
    | some ds =>
      if ds.any (fun x => x ≤ (0.5 : ℚ)) then
        let best := argminIdx ds
        let score : ℚ := 1 - ds.getD best 0
        let name := g.getD best ""
        if (0.6 : ℚ) < score then
          { results := s.results ++ [⟨name, .Present, .high score, some d.box, none⟩],
            recognized := s.recognized ++ [name],
            processed := s.processed ++ [d.box] }
        else
          { s with results := s.results ++ [⟨name, .Unknown, .low score, some d.box, none⟩] }
      else
        { s with
            results := s.results ++
              [⟨"Unknown Person " ++ toString (i + 1), .Unknown, .lowNoScore, some d.box, none⟩] }

/-- The per-face loop `for i, face_encoding in enumerate(face_encodings)`
(face_utils.py line 175), threading the loop state. -/
def processFaces (g : List String) : Nat → List Detection → LoopState → LoopState
  | _, [], s => s
  | i, d :: rest, s => processFaces g (i + 1) rest (faceStep g s i d)

/-- The initial loop state (face_utils.py lines 170-172). -/
def initState : LoopState := ⟨[], [], []⟩

/-- The absent-marking loop of face_utils.py lines 249-257: one Absent
record per gallery name not in `recognized_students`, in gallery order. -/
def absentRecords (g : List String) (recognized : List String) : List AttendanceRecord :=
  (g.filter (fun n => !(recognized.contains n))).map
    (fun n => ⟨n, .Absent, .na, none, none⟩)

/-- The sort key of face_utils.py line 260:
`('Present', 'Absent', 'Unknown', 'Error').index(status)`. -/
def statusPriority : Status → Nat
  | .Present => 0
  | .Absent => 1
  | .Unknown => 2
  | .Error => 3

/-- The comparison underlying `attendance_results.sort(key=...)`. -/
def recordLE (a b : AttendanceRecord) : Bool :=
  statusPriority a.status ≤ statusPriority b.status

/-- Python's `list.sort` (face_utils.py line 260) is a stable sort;
`List.mergeSort` is the stable sort of the Lean library. -/
def sortRoster (rs : List AttendanceRecord) : List AttendanceRecord :=
  rs.mergeSort recordLE

/-- The record list as assembled before sorting: the per-face records
(face_utils.py lines 175-246) followed by the Absent records (lines
249-257). -/
def rawRoster (g : List String) (dets : List Detection) : List AttendanceRecord :=
  let st := processFaces g 0 dets initState
  st.results ++ absentRecords g st.recognized

/-- `FaceRecognitionSystem.process_class_photo` (face_utils.py lines
141-263) viewed from after the external detector calls: `g` is
`known_face_names` (parallel to `known_face_encodings`), `dets` the
detections with their comparison outcomes.  `none` embeds the `return
None` of line 156 (no faces) and of line 165 (no known students);
otherwise the sorted roster of line 263 is returned. -/
def process_class_photo (g : List String) (dets : List Detection) :
    Option (List AttendanceRecord) :=
  if dets.isEmpty then none
  else if g.isEmpty then none
  else some (sortRoster (rawRoster g dets))

/-- The count extraction of the upload handler (app.py lines 73-88):
`summary_info = attendance_results[0].get('summary_info', {})`, then
nested `.get`s with default `{}` resp. `0`.  The five extracted counters,
in order: present, absent, unknown, errors, total faces detected,
total students. -/
def uploadCounts (results : List AttendanceRecord) : Nat × Nat × Nat × Nat × Nat × Nat :=
  match results with
  | [] => (0, 0, 0, 0, 0, 0)
  | r :: _ =>
    match r.summary_info with
    | none => (0, 0, 0, 0, 0, 0)
    | some si =>
      (si.attendance_summary.present, si.attendance_summary.absent,
       si.attendance_summary.unknown, si.attendance_summary.errors,
       si.processing_summary.total_faces_detected, si.attendance_summary.total_students)

/-- One row of `attendance/attendance.csv` as written by
`AttendanceManager.save_attendance` (db_utils.py lines 40-48). -/
structure CsvRow where
  date : String
  name : String
  status : String
  confidence : String
  timestamp : String
deriving DecidableEq

/-- One entry of the list returned by
`AttendanceManager.get_attendance_by_date` (db_utils.py lines 79-85). -/
structure DbRecord where
  name : String
  status : String
  confidence : String
  timestamp : String
deriving DecidableEq

/-- `AttendanceManager.save_attendance` (db_utils.py lines 33-56): one CSV
row per record, copying name and status verbatim; the rendering of the
confidence field to text and the wall-clock timestamp are irrelevant
here and passed as parameters. -/
def save_attendance (date : String) (results : List AttendanceRecord)
    (renderConf : Confidence → String) (timestamp : String) : List CsvRow :=
  results.map (fun r => ⟨date, r.name, statusStr r.status, renderConf r.confidence, timestamp⟩)

/-- The sort key of db_utils.py line 88:
`('Present', 'Absent', 'Unknown').index(status)`; `none` embeds the
`ValueError` raised for any other status string. -/
def statusKey3 (s : String) : Option Nat :=
  if s = "Present" then some 0
  else if s = "Absent" then some 1
  else if s = "Unknown" then some 2
  else none

/-- The comparison underlying the sort at db_utils.py line 88.  It is only
consulted on rows all of whose keys exist (otherwise the embedding takes
the exception branch), so the `getD 0` default is never the deciding
value. -/
def dbLE (a b : DbRecord) : Bool :=
  (statusKey3 a.status).getD 0 ≤ (statusKey3 b.status).getD 0

/-- `AttendanceManager.get_attendance_by_date` (db_utils.py lines 62-94):
filter the stored rows by date; an empty filtrate returns `[]` (line 75);
otherwise sort by the three-entry status key — if any status is outside
the key tuple, `.index` raises `ValueError`, the `except` at line 92
catches it and the function returns `[]`. -/
def get_attendance_by_date (rows : List CsvRow) (date : String) : List DbRecord :=
  let dateData := rows.filter (fun r => r.date == date)
  if dateData.isEmpty then []
  else
    let lst := dateData.map (fun r => (⟨r.name, r.status, r.confidence, r.timestamp⟩ : DbRecord))
    if lst.all (fun r => (statusKey3 r.status).isSome) then
      lst.mergeSort dbLE
    else
      []

/-- The deduplication rule exactly as the specification words it
(spec §4.2): a greedy scan that keeps a detection precisely when its
center is at least 50 pixels from the center of every previously KEPT
detection, earlier detection winning.  Stated on squared distances like
the code-side test.  This is the spec-side definition that claim C1
compares against the code. -/
def specDedupAux (keptBoxes : List Box) : List Detection → List Detection
  | [] => []
  | d :: rest =>
    if keptBoxes.all (fun p => 2500 ≤ centerDistSq d.box p) then
      d :: specDedupAux (keptBoxes ++ [d.box]) rest
    else
      specDedupAux keptBoxes rest

/-- Greedy spec-side deduplication over the full detection list. -/
def specDedup (dets : List Detection) : List Detection :=
  specDedupAux [] dets

/-- The bounding boxes of the detections that survive the code's
deduplication, i.e. of the per-face records actually produced (every
per-face record carries its face's box; Absent records are added only
after the loop). -/
def keptBoxes (g : List String) (dets : List Detection) : List Box :=
  (processFaces g 0 dets initState).results.filterMap (fun r => r.face_location)

/-- Count of roster records with status Present or Absent bearing a
gallery name — the records claim C2 calls "attributable to gallery
identities". -/
def galleryPA (g : List String) (roster : List AttendanceRecord) : Nat :=
  (roster.filter (fun r =>
    (r.status == Status.Present || r.status == Status.Absent) && g.contains r.name)).length

/-! Concrete inputs used by counterexamples and witnesses. -/

/-- A face location with center `(0, 0)`. -/
def boxA : Box := ⟨0, 0, 0, 0⟩

/-- A face location with center `(200, 200)`, far from `boxA`. -/
def boxB : Box := ⟨200, 200, 200, 200⟩

/-- A face location with center `(0, 49)`: exactly 49 pixels from
`boxA`'s center. -/
def box49 : Box := ⟨0, 49, 0, 49⟩

/-- A face location with center `(0, 51)`: exactly 51 pixels from
`boxA`'s center. -/
def box51 : Box := ⟨0, 51, 0, 51⟩

/-- A one-person gallery. -/
def galA : List String := ["Alice"]

/-- A detection at `boxA` whose distance to the single gallery entry is
1: fails the 0.5 tolerance, hence unmatched. -/
def detU : Detection := ⟨boxA, some [1]⟩

/-- A detection at `boxA` at distance 0 from the single gallery entry:
matched with confidence 1. -/
def detP : Detection := ⟨boxA, some [0]⟩

/-- A detection at `boxB` at distance 0 from the single gallery entry. -/
def detP' : Detection := ⟨boxB, some [0]⟩

/-- A detection at `boxB` whose comparison raises. -/
def detE : Detection := ⟨boxB, none⟩

/-- A detection at `boxA` whose comparison raises. -/
def detE0 : Detection := ⟨boxA, none⟩

/-- The record produced for `detP` against `galA`. -/
def recPA : AttendanceRecord := ⟨"Alice", .Present, .high 1, some boxA, none⟩

/-- The record produced for `detP'` against `galA`. -/
def recPB : AttendanceRecord := ⟨"Alice", .Present, .high 1, some boxB, none⟩

/-- The first unmatched-unknown record at `boxA`. -/
def recU1 : AttendanceRecord := ⟨"Unknown Person 1", .Unknown, .lowNoScore, some boxA, none⟩

/-- The second unmatched-unknown record at `boxA`. -/
def recU2 : AttendanceRecord := ⟨"Unknown Person 2", .Unknown, .lowNoScore, some boxA, none⟩

/-- The error record for the second detection at `boxB`. -/
def recE2 : AttendanceRecord := ⟨"Error 2", .Error, .na, some boxB, none⟩

/-- The Absent record for Alice. -/
def recAbsA : AttendanceRecord := ⟨"Alice", .Absent, .na, none, none⟩

/-! Helper lemmas about `argmin`. -/

/-- Invariant of the `argmin` scan: if `best` is the value at `bestIdx`
in the prefix already scanned and is minimal there, the scan of the rest
returns an in-bounds index whose value is minimal in the whole list. -/
lemma argminAux_spec (xs : List ℚ) : ∀ (pre : List ℚ) (best : ℚ) (bestIdx : Nat),
    bestIdx < pre.length → pre.getD bestIdx 0 = best → (∀ x ∈ pre, best ≤ x) →
    argminAux best bestIdx pre.length xs < (pre ++ xs).length ∧
      ∀ y ∈ pre ++ xs, (pre ++ xs).getD (argminAux best bestIdx pre.length xs) 0 ≤ y := by
  induction xs with
  | nil =>
    intro pre best bestIdx h1 h2 h3
    simp only [argminAux, List.append_nil]
    refine ⟨h1, fun y hy => ?_⟩
    rw [h2]
    exact h3 y hy
  | cons x xs ih =>
    intro pre best bestIdx h1 h2 h3
    simp only [argminAux]
    by_cases hx : x < best
    · rw [if_pos hx]
      have h1' : pre.length < (pre ++ [x]).length := by simp
      have h2' : (pre ++ [x]).getD pre.length 0 = x := by
        rw [List.getD_append_right _ _ _ _ (le_refl _)]
        simp
      have h3' : ∀ z ∈ pre ++ [x], x ≤ z := by
        intro z hz
        rcases List.mem_append.mp hz with hz | hz
        · exact le_of_lt (lt_of_lt_of_le hx (h3 z hz))
        · rw [List.mem_singleton.mp hz]
      have hlen : (pre ++ [x]).length = pre.length + 1 := by simp
      have := ih (pre ++ [x]) x pre.length h1' h2' h3'
      rw [hlen] at this
      simpa [List.append_assoc] using this
    · rw [if_neg hx]
      have hbx : best ≤ x := le_of_not_lt hx
      have h1' : bestIdx < (pre ++ [x]).length := by simp; omega
      have h2' : (pre ++ [x]).getD bestIdx 0 = best := by
        rw [List.getD_append _ _ _ _ h1]
        exact h2
      have h3' : ∀ z ∈ pre ++ [x], best ≤ z := by
        intro z hz
        rcases List.mem_append.mp hz with hz | hz
        · exact h3 z hz
        · rw [List.mem_singleton.mp hz]; exact hbx
      have hlen : (pre ++ [x]).length = pre.length + 1 := by simp
      have := ih (pre ++ [x]) best bestIdx h1' h2' h3'
      rw [hlen] at this
      simpa [List.append_assoc] using this

/-- The `argmin` index is in bounds for a nonempty list. -/
lemma argminIdx_lt (ds : List ℚ) (h : ds ≠ []) : argminIdx ds < ds.length := by
  match ds, h with
  | x :: xs, _ =>
    have := argminAux_spec xs [x] x 0 (by simp) (by simp) (by simp)
    simpa [argminIdx] using this.1

/-- The value at the `argmin` index is the global minimum of the list. -/
lemma argminIdx_min (ds : List ℚ) (y : ℚ) (hy : y ∈ ds) :
    ds.getD (argminIdx ds) 0 ≤ y := by
  match ds with
  | x :: xs =>
    have := argminAux_spec xs [x] x 0 (by simp) (by simp) (by simp)
    simp only [List.singleton_append] at this
    exact this.2 y hy

/-! Helper lemmas about the stable status sort. -/

/-- The sort comparison is transitive. -/
lemma recordLE_trans : ∀ a b c : AttendanceRecord,
    recordLE a b → recordLE b c → recordLE a c := by
  intro a b c hab hbc
  simp only [recordLE, decide_eq_true_eq] at *
  omega

/-- The sort comparison is total. -/
lemma recordLE_total : ∀ a b : AttendanceRecord, recordLE a b || recordLE b a := by
  intro a b
  simp only [recordLE, Bool.or_eq_true, decide_eq_true_eq]
  omega

/-- Sorting the roster permutes it. -/
lemma sortRoster_perm (l : List AttendanceRecord) : (sortRoster l).Perm l :=
  List.mergeSort_perm l recordLE

/-- The sorted roster is ordered by the status priority. -/
lemma sortRoster_sorted (l : List AttendanceRecord) :
    (sortRoster l).Pairwise
      (fun a b => statusPriority a.status ≤ statusPriority b.status) := by
  have := List.sorted_mergeSort recordLE_trans recordLE_total l
  exact this.imp (by intro a b h; simpa [recordLE] using h)

/-- Stability of the roster sort, in the form claim C7 needs: the
subsequence of records of any one status is untouched by the sort. -/
lemma sortRoster_filter (l : List AttendanceRecord) (st : Status) :
    (sortRoster l).filter (fun r => r.status == st) = l.filter (fun r => r.status == st) := by
  set p : AttendanceRecord → Bool := fun r => r.status == st with hp
  have hpair : (l.filter p).Pairwise (fun a b => recordLE a b = true) := by
    apply List.pairwise_of_forall_mem_list
    intro a ha b hb
    have ha' := List.of_mem_filter ha
    have hb' := List.of_mem_filter hb
    simp only [hp, beq_iff_eq] at ha' hb'
    simp [recordLE, ha', hb']
  have hsub : (l.filter p).Sublist (sortRoster l) :=
    List.sublist_mergeSort recordLE_trans recordLE_total hpair (List.filter_sublist l)
  have hsub2 : ((l.filter p).filter p).Sublist ((sortRoster l).filter p) := hsub.filter p
  have hself : (l.filter p).filter p = l.filter p :=
    List.filter_eq_self.mpr (fun a ha => List.of_mem_filter ha)
  rw [hself] at hsub2
  have hperm : ((sortRoster l).filter p).Perm (l.filter p) :=
    (sortRoster_perm l).filter p
  exact (hsub2.eq_of_length hperm.length_eq.symm).symm

/-! Helper lemmas about the per-face loop. -/

/-- Exhaustive description of one loop iteration: either the face is
dropped as a duplicate and the state is untouched; or exactly one
non-Present, non-Absent record carrying the face's box is appended and
`recognized`/`processed` are untouched; or the accepted-match record is
appended together with its name in `recognized` and its box in
`processed`. -/
lemma faceStep_cases (g : List String) (s : LoopState) (i : Nat) (d : Detection) :
    (faceStep g s i d = s ∧ isDuplicate d.box s.processed = true) ∨
    (∃ r, r.status ≠ Status.Present ∧ r.status ≠ Status.Absent ∧
      r.face_location = some d.box ∧ r.summary_info = none ∧
      faceStep g s i d = ⟨s.results ++ [r], s.recognized, s.processed⟩) ∨
    (∃ ds, d.cmp = some ds ∧ ds ≠ [] ∧
      faceStep g s i d =
        ⟨s.results ++ [⟨g.getD (argminIdx ds) "", .Present,
            .high (1 - ds.getD (argminIdx ds) 0), some d.box, none⟩],
          s.recognized ++ [g.getD (argminIdx ds) ""], s.processed ++ [d.box]⟩) := by
  unfold faceStep
  by_cases hdup : isDuplicate d.box s.processed
  · left
    exact ⟨by rw [if_pos hdup], hdup⟩
  · rw [if_neg hdup]
    right
    match hc : d.cmp with
    | none =>
      left
      exact ⟨errorRecord i d.box, by simp [errorRecord], by simp [errorRecord],
        by simp [errorRecord], by simp [errorRecord], rfl⟩
    | some ds =>
      dsimp only
      by_cases hany : ds.any (fun x => x ≤ (0.5 : ℚ))
      · have hne : ds ≠ [] := by
          intro h
          rw [h] at hany
          simp [List.any_nil] at hany
        rw [if_pos hany]
        by_cases hsc : (0.6 : ℚ) < 1 - ds.getD (argminIdx ds) 0
        · right
          exact ⟨ds, rfl, hne, by simp only [if_pos hsc]⟩
        · left
          refine ⟨⟨g.getD (argminIdx ds) "", .Unknown,
            .low (1 - ds.getD (argminIdx ds) 0), some d.box, none⟩,
            by simp, by simp, rfl, rfl, ?_⟩
          simp only [if_neg hsc]
      · rw [if_neg hany]
        left
        exact ⟨⟨"Unknown Person " ++ toString (i + 1), .Unknown, .lowNoScore,
          some d.box, none⟩, by simp, by simp, rfl, rfl, rfl⟩

/-- A loop iteration leaves the state untouched exactly when the face is
a duplicate of a previously accepted (Present) face, i.e. when some
already processed box center lies strictly within 50 pixels. -/
lemma faceStep_fixed_iff (g : List String) (s : LoopState) (i : Nat) (d : Detection) :
    faceStep g s i d = s ↔ ∃ p ∈ s.processed, centerDistSq d.box p < 2500 := by
  constructor
  · intro h
    rcases faceStep_cases g s i d with ⟨_, hdup⟩ | ⟨r, _, _, _, _, heq⟩ | ⟨ds, _, _, heq⟩
    · simpa [isDuplicate, List.any_eq_true] using hdup
    · rw [heq] at h
      have := congrArg (fun t => t.results.length) h
      simp at this
    · rw [heq] at h
      have := congrArg (fun t => t.results.length) h
      simp at this
  · intro h
    have hdup : isDuplicate d.box s.processed = true := by
      simpa [isDuplicate, List.any_eq_true] using h
    unfold faceStep
    rw [if_pos hdup]

/-- The loop preserves any state invariant that every iteration
preserves; the detection-side hypothesis `Q` lets an invariant depend on
well-formedness of the detections actually processed. -/
lemma processFaces_inv (g : List String) (P : LoopState → Prop) (Q : Detection → Prop)
    (hstep : ∀ s i d, Q d → P s → P (faceStep g s i d)) :
    ∀ (dets : List Detection) (i : Nat) (s : LoopState),
      (∀ d ∈ dets, Q d) → P s → P (processFaces g i dets s) := by
  intro dets
  induction dets with
  | nil => intro i s _ hP; exact hP
  | cons d rest ih =>
    intro i s hQ hP
    exact ih (i + 1) (faceStep g s i d)
      (fun d' hd' => hQ d' (List.mem_cons_of_mem d hd'))
      (hstep s i d (hQ d (List.mem_cons_self d rest)) hP)

/-- One iteration only ever appends to `results`: a prefix of `results`
rides along untouched. -/
lemma faceStep_shift (g : List String) (pre : List AttendanceRecord)
    (s : LoopState) (i : Nat) (d : Detection) :
    faceStep g ⟨pre ++ s.results, s.recognized, s.processed⟩ i d =
      ⟨pre ++ (faceStep g s i d).results, (faceStep g s i d).recognized,
        (faceStep g s i d).processed⟩ := by
  unfold faceStep
  by_cases hdup : isDuplicate d.box s.processed
  · simp [hdup]
  · simp only [hdup, Bool.false_eq_true, if_false]
    match d.cmp with
    | none => simp [List.append_assoc]
    | some ds =>
      by_cases hany : ds.any (fun x => x ≤ (0.5 : ℚ))
      · simp only [if_pos hany]
        by_cases hsc : (0.6 : ℚ) < 1 - ds.getD (argminIdx ds) 0
        · simp only [if_pos hsc]
          simp [List.append_assoc]
        · simp only [if_neg hsc]
          simp [List.append_assoc]
      · simp only [if_neg hany]
        simp [List.append_assoc]

/-- The whole loop only ever appends to `results`: running it from a
state with a `results` prefix produces the same new records after that
prefix. -/
lemma processFaces_shift (g : List String) :
    ∀ (dets : List Detection) (i : Nat) (pre : List AttendanceRecord) (s : LoopState),
    processFaces g i dets ⟨pre ++ s.results, s.recognized, s.processed⟩ =
      ⟨pre ++ (processFaces g i dets s).results, (processFaces g i dets s).recognized,
        (processFaces g i dets s).processed⟩ := by
  intro dets
  induction dets with
  | nil => intro i pre s; rfl
  | cons d rest ih =>
    intro i pre s
    show processFaces g (i + 1) rest
        (faceStep g ⟨pre ++ s.results, s.recognized, s.processed⟩ i d) = _
    rw [faceStep_shift]
    exact ih (i + 1) pre (faceStep g s i d)

/-- `results` accumulation in the convenient corollary form. -/
lemma processFaces_results_acc (g : List String) (dets : List Detection)
    (i : Nat) (s : LoopState) :
    (processFaces g i dets s).results =
      s.results ++ (processFaces g i dets ⟨[], s.recognized, s.processed⟩).results := by
  have := processFaces_shift g dets i s.results ⟨[], s.recognized, s.processed⟩
  simp only [List.append_nil] at this
  rw [this]

/-- Each run appends, after the inherited records, one record per
surviving detection; the surviving boxes form an order-preserving
subsequence of the input boxes. -/
lemma processFaces_kept_sublist (g : List String) :
    ∀ (dets : List Detection) (i : Nat) (s : LoopState),
      ∃ t, (processFaces g i dets s).results = s.results ++ t ∧
        (t.filterMap (fun r => r.face_location)).Sublist (dets.map Detection.box) := by
  intro dets
  induction dets with
  | nil => intro i s; exact ⟨[], by simp [processFaces], by simp⟩
  | cons d rest ih =>
    intro i s
    show ∃ t, (processFaces g (i + 1) rest (faceStep g s i d)).results = _ ∧ _
    rcases ih (i + 1) (faceStep g s i d) with ⟨t, ht1, ht2⟩
    rcases faceStep_cases g s i d with ⟨heq, _⟩ | ⟨r, _, _, hloc, _, heq⟩ | ⟨ds, _, _, heq⟩
    · refine ⟨t, by rw [ht1, heq], ?_⟩
      simp only [List.map_cons]
      exact ht2.cons _
    · refine ⟨r :: t, ?_, ?_⟩
      · rw [ht1, heq]
        simp
      · simp only [List.filterMap_cons, hloc, List.map_cons]
        exact ht2.cons₂ _
    · refine ⟨⟨g.getD (argminIdx ds) "", .Present,
        .high (1 - ds.getD (argminIdx ds) 0), some d.box, none⟩ :: t, ?_, ?_⟩
      · rw [ht1, heq]
        simp
      · simp only [List.filterMap_cons, List.map_cons]
        exact ht2.cons₂ _

/-- The central loop invariants: `recognized_students` is exactly the
name list of the Present records so far, `processed_faces` is exactly
the box list of the Present records so far, and no per-face record is
Absent or carries a `summary_info` key. -/
lemma processFaces_invariants (g : List String) (dets : List Detection) :
    (processFaces g 0 dets initState).recognized =
      ((processFaces g 0 dets initState).results.filter
        (fun r => r.status == Status.Present)).map (fun r => r.name) ∧
    (processFaces g 0 dets initState).processed =
      ((processFaces g 0 dets initState).results.filter
        (fun r => r.status == Status.Present)).filterMap (fun r => r.face_location) ∧
    ∀ r ∈ (processFaces g 0 dets initState).results,
      r.status ≠ Status.Absent ∧ r.summary_info = none := by
  apply processFaces_inv g
    (fun s => s.recognized =
        (s.results.filter (fun r => r.status == Status.Present)).map (fun r => r.name) ∧
      s.processed =
        (s.results.filter (fun r => r.status == Status.Present)).filterMap
          (fun r => r.face_location) ∧
      ∀ r ∈ s.results, r.status ≠ Status.Absent ∧ r.summary_info = none)
    (fun _ => True)
  · intro s i d _ hP
    rcases faceStep_cases g s i d with ⟨heq, _⟩ | ⟨r, hrP, hrA, hloc, hsi, heq⟩ |
      ⟨ds, _, _, heq⟩
    · rw [heq]
      exact hP
    · rw [heq]
      have hfilt : (r.status == Status.Present) = false := by
        simpa using hrP
      refine ⟨?_, ?_, ?_⟩
      · simp only [List.filter_append, List.filter_cons, hfilt, List.filter_nil,
          List.append_nil, List.map_append]
        simp [hP.1]
      · simp only [List.filter_append, List.filter_cons, hfilt, List.filter_nil,
          List.append_nil, List.filterMap_append]
        simp [hP.2.1]
      · intro r' hr'
        rcases List.mem_append.mp hr' with h | h
        · exact hP.2.2 r' h
        · rw [List.mem_singleton.mp h]
          exact ⟨hrA, hsi⟩
    · rw [heq]
      refine ⟨?_, ?_, ?_⟩
      · simp only [List.filter_append, List.filter_cons, List.filter_nil, List.map_append]
        simp [hP.1]
      · simp only [List.filter_append, List.filter_cons, List.filter_nil,
          List.filterMap_append]
        simp [hP.2.1]
      · intro r' hr'
        rcases List.mem_append.mp hr' with h | h
        · exact hP.2.2 r' h
        · rw [List.mem_singleton.mp h]
          exact ⟨by simp, rfl⟩
  · intro d _
    trivial
  · exact ⟨rfl, rfl, by simp [initState]⟩

/-- Under the alignment well-formedness of the detections (each distance
list is as long as the gallery), every recognized name is a gallery
name. -/
lemma processFaces_recognized_subset (g : List String) (dets : List Detection)
    (hwf : ∀ d ∈ dets, ∀ ds, d.cmp = some ds → ds.length = g.length) :
    ∀ n ∈ (processFaces g 0 dets initState).recognized, n ∈ g := by
  apply processFaces_inv g (fun s => ∀ n ∈ s.recognized, n ∈ g)
    (fun d => ∀ ds, d.cmp = some ds → ds.length = g.length)
  · intro s i d hQ hP
    rcases faceStep_cases g s i d with ⟨heq, _⟩ | ⟨r, _, _, _, _, heq⟩ | ⟨ds, hc, hne, heq⟩
    · rw [heq]
      exact hP
    · rw [heq]
      exact hP
    · rw [heq]
      intro n hn
      rcases List.mem_append.mp hn with h | h
      · exact hP n h
      · rw [List.mem_singleton.mp h]
        have hlt : argminIdx ds < g.length := by
          rw [← hQ ds hc]
          exact argminIdx_lt ds hne
        rw [List.getD_eq_getElem g "" hlt]
        exact List.getElem_mem hlt
  · exact hwf
  · simp [initState]

/-! Shape of a successful run. -/

/-- With at least one detection and a nonempty gallery the function
returns the sorted assembled roster. -/
lemma process_class_photo_eq_some (g : List String) (dets : List Detection)
    (hd : dets ≠ []) (hg : g ≠ []) :
    process_class_photo g dets = some (sortRoster (rawRoster g dets)) := by
  unfold process_class_photo
  rw [if_neg (by simpa using hd), if_neg (by simpa using hg)]

/-- Conversely, a returned roster means both inputs were nonempty and the
roster is the sorted assembled list. -/
lemma process_class_photo_some_inv (g : List String) (dets : List Detection)
    (roster : List AttendanceRecord) (h : process_class_photo g dets = some roster) :
    dets ≠ [] ∧ g ≠ [] ∧ roster = sortRoster (rawRoster g dets) := by
  unfold process_class_photo at h
  by_cases hd : dets.isEmpty
  · rw [if_pos hd] at h
    exact absurd h (by simp)
  · rw [if_neg hd] at h
    by_cases hg : g.isEmpty
    · rw [if_pos hg] at h
      exact absurd h (by simp)
    · rw [if_neg hg] at h
      exact ⟨by simpa using hd, by simpa using hg, (Option.some.injEq _ _ ▸ h).symm⟩

/-! Evaluation of the concrete runs. -/

/-- Two far-apart perfect matches: both are accepted as Alice. -/
lemma run_two_present : processFaces galA 0 [detP, detP'] initState =
    ⟨[recPA, recPB], ["Alice", "Alice"], [boxA, boxB]⟩ := by
  norm_num [processFaces, faceStep, isDuplicate, centerDistSq, Box.center, argminIdx,
    argminAux, detP, detP', boxA, boxB, galA, initState, recPA, recPB, Int.fdiv]

/-- The two-Present raw roster is already sorted. -/
lemma raw_two_present : rawRoster galA [detP, detP'] = [recPA, recPB] := by
  rw [rawRoster, run_two_present]
  decide

/-- The two-Present roster sorts to itself. -/
lemma sort_two_present : sortRoster [recPA, recPB] = [recPA, recPB] := by
  apply List.mergeSort_of_sorted
  decide

/-- The full run on the two perfect matches. -/
lemma proc_two_present : process_class_photo galA [detP, detP'] = some [recPA, recPB] := by
  rw [process_class_photo_eq_some galA [detP, detP'] (by simp) (by simp [galA]),
    raw_two_present, sort_two_present]

/-- One perfect match: Alice Present, nothing else. -/
lemma run_one_present : processFaces galA 0 [detP] initState =
    ⟨[recPA], ["Alice"], [boxA]⟩ := by
  norm_num [processFaces, faceStep, isDuplicate, centerDistSq, Box.center, argminIdx,
    argminAux, detP, boxA, galA, initState, recPA, Int.fdiv]

/-- The full run on one perfect match. -/
lemma proc_one_present : process_class_photo galA [detP] = some [recPA] := by
  rw [process_class_photo_eq_some galA [detP] (by simp) (by simp [galA])]
  rw [rawRoster, run_one_present]
  have hraw : ([recPA] : List AttendanceRecord) ++ absentRecords galA ["Alice"] = [recPA] := by
    decide
  rw [hraw]
  exact congrArg some (List.mergeSort_of_sorted (by decide))

/-- A perfect match followed by a raising comparison: Alice Present, one
Error record, no Absent record. -/
lemma run_present_error : processFaces galA 0 [detP, detE] initState =
    ⟨[recPA, recE2], ["Alice"], [boxA]⟩ := by
  norm_num [processFaces, faceStep, isDuplicate, centerDistSq, Box.center, argminIdx,
    argminAux, detP, detE, boxA, boxB, galA, initState, recPA, recE2, errorRecord, Int.fdiv]
  rfl

/-- The full run on the match-then-raise input. -/
lemma proc_present_error : process_class_photo galA [detP, detE] = some [recPA, recE2] := by
  rw [process_class_photo_eq_some galA [detP, detE] (by simp) (by simp [galA])]
  rw [rawRoster, run_present_error]
  have hraw : ([recPA, recE2] : List AttendanceRecord) ++ absentRecords galA ["Alice"] =
      [recPA, recE2] := by
    decide
  rw [hraw]
  exact congrArg some (List.mergeSort_of_sorted (by decide))

/-- Two coincident unmatched detections: the code keeps both (no box was
ever added to `processed_faces`). -/
lemma kept_two_unknown : keptBoxes galA [detU, detU] = [boxA, boxA] := by
  norm_num [keptBoxes, processFaces, faceStep, isDuplicate, centerDistSq, Box.center,
    argminIdx, argminAux, detU, boxA, galA, initState]
  rfl

/-- The spec-side greedy deduplication would keep only the first of the
two coincident detections. -/
lemma specDedup_two_unknown : (specDedup [detU, detU]).map Detection.box = [boxA] := by
  norm_num [specDedup, specDedupAux, centerDistSq, Box.center, detU, boxA, Int.fdiv]

/-- The assembled (unsorted) roster is by definition the per-face records
followed by the Absent records. -/
lemma rawRoster_eq (g : List String) (dets : List Detection) :
    rawRoster g dets = (processFaces g 0 dets initState).results ++
      absentRecords g (processFaces g 0 dets initState).recognized := rfl

/-- Counting the Present-or-Absent records bearing gallery names: under
detection/gallery alignment, distinct gallery names and no doubly
recognized name, they number exactly the gallery size. -/
lemma galleryPA_rawRoster (g : List String) (dets : List Detection)
    (hwf : ∀ d ∈ dets, ∀ ds, d.cmp = some ds → ds.length = g.length)
    (hgn : g.Nodup)
    (hrn : (processFaces g 0 dets initState).recognized.Nodup) :
    galleryPA g (rawRoster g dets) = g.length := by
  obtain ⟨hR, -, hNA⟩ := processFaces_invariants g dets
  have hsub := processFaces_recognized_subset g dets hwf
  set st := processFaces g 0 dets initState with hst
  unfold galleryPA
  rw [rawRoster_eq, ← hst, List.filter_append, List.length_append]
  have habs : (absentRecords g st.recognized).filter
      (fun r => (r.status == Status.Present || r.status == Status.Absent) &&
        g.contains r.name) = absentRecords g st.recognized := by
    rw [List.filter_eq_self]
    intro r hr
    simp only [absentRecords, List.mem_map] at hr
    obtain ⟨n, hn, rfl⟩ := hr
    have hng : n ∈ g := (List.mem_filter.mp hn).1
    simp [List.elem_iff, hng, List.contains]
  have hres : st.results.filter
      (fun r => (r.status == Status.Present || r.status == Status.Absent) &&
        g.contains r.name) = st.results.filter (fun r => r.status == Status.Present) := by
    apply List.filter_congr
    intro r hr
    by_cases hp : r.status = Status.Present
    · have hnr : r.name ∈ st.recognized := by
        rw [hR]
        exact List.mem_map.mpr ⟨r, List.mem_filter.mpr ⟨hr, by simp [hp]⟩, rfl⟩
      have hg2 : r.name ∈ g := hsub r.name hnr
      simp [hp, List.elem_iff, hg2, List.contains]
    · have hA := (hNA r hr).1
      have h1 : (r.status == Status.Present) = false := by simpa using hp
      have h2 : (r.status == Status.Absent) = false := by simpa using hA
      simp [h1, h2]
  rw [habs, hres]
  have hlen1 : (st.results.filter (fun r => r.status == Status.Present)).length =
      st.recognized.length := by
    rw [hR, List.length_map]
  have hlen2 : (absentRecords g st.recognized).length =
      (g.filter (fun n => !(st.recognized.contains n))).length := by
    simp [absentRecords]
  rw [hlen1, hlen2]
  have hperm : (g.filter (fun n => st.recognized.contains n)).Perm st.recognized := by
    apply List.perm_of_nodup_nodup_toFinset_eq (hgn.filter _) hrn
    ext x
    simp only [List.mem_toFinset, List.mem_filter]
    constructor
    · rintro ⟨-, hx⟩
      exact List.elem_iff.mp hx
    · intro hx
      exact ⟨hsub x hx, List.elem_iff.mpr hx⟩
  have hsplit := (List.filter_append_perm (fun n => st.recognized.contains n) g).length_eq
  rw [List.length_append, hperm.length_eq] at hsplit
  omega

/-- With a nonempty gallery the assembled roster is never empty: each
gallery name yields a Present record or an Absent record. -/
lemma rawRoster_ne_nil (g : List String) (dets : List Detection) (hg : g ≠ []) :
    rawRoster g dets ≠ [] := by
  obtain ⟨hR, -, -⟩ := processFaces_invariants g dets
  rw [rawRoster_eq]
  intro h
  obtain ⟨h1, h2⟩ := List.append_eq_nil.mp h
  have hrec : (processFaces g 0 dets initState).recognized = [] := by
    rw [hR, h1]
    simp
  rw [hrec] at h2
  simp only [absentRecords, List.map_eq_nil_iff, List.filter_eq_nil_iff] at h2
  rcases g with _ | ⟨n, g'⟩
  · exact hg rfl
  · exact absurd (by simp [List.contains]) (h2 n (List.mem_cons_self n g'))

/-! The claims. -/

/-- C1, counterexample: the claim says a detection is kept iff its center
is at least 50 pixels from EVERY previously kept detection.  Two
coincident detections that both fail the gallery match are nevertheless
both kept by the code (only Present-accepted boxes enter
`processed_faces`), while the claimed rule would drop the second. -/
theorem c1_dedup_counterexample :
    keptBoxes galA [detU, detU] ≠ (specDedup [detU, detU]).map Detection.box := by
  rw [kept_two_unknown, specDedup_two_unknown]
  decide

/-- C1, amended: deduplication is a greedy linear scan over the ordered
detections whose output is an order-preserving subsequence of the input,
but a detection is dropped iff its box center is strictly within 50
pixels (squared distance < 2500, so 49 apart collapses and 51 does not)
of the center of an earlier detection that was accepted as Present — not
of every previously kept detection; the earlier detection always wins. -/
theorem c1_dedup_amended :
    (∀ (g : List String) (dets : List Detection),
      (keptBoxes g dets).Sublist (dets.map Detection.box)) ∧
    (∀ (g : List String) (s : LoopState) (i : Nat) (d : Detection),
      faceStep g s i d = s ↔ ∃ p ∈ s.processed, centerDistSq d.box p < 2500) ∧
    (∀ (g : List String) (dets : List Detection),
      (processFaces g 0 dets initState).processed =
        ((processFaces g 0 dets initState).results.filter
          (fun r => r.status == Status.Present)).filterMap (fun r => r.face_location)) := by
  refine ⟨?_, ?_, ?_⟩
  · intro g dets
    obtain ⟨t, h1, h2⟩ := processFaces_kept_sublist g dets 0 initState
    rw [keptBoxes, h1]
    simpa [initState] using h2
  · intro g s i d
    exact faceStep_fixed_iff g s i d
  · intro g dets
    exact (processFaces_invariants g dets).2.1

/-- C1, witness for the amended statement: with a Present-accepted box at
center distance exactly 49 the next detection is dropped, at exactly 51
it is not. -/
theorem c1_dedup_amended_witness :
    faceStep galA ⟨[], [], [box49]⟩ 0 detU = ⟨[], [], [box49]⟩ ∧
    ¬faceStep galA ⟨[], [], [box51]⟩ 0 detU = ⟨[], [], [box51]⟩ := by
  constructor
  · exact (c1_dedup_amended.2.1 galA ⟨[], [], [box49]⟩ 0 detU).mpr
      ⟨box49, by decide, by decide⟩
  · intro h
    obtain ⟨p, hp, hlt⟩ := (c1_dedup_amended.2.1 galA ⟨[], [], [box51]⟩ 0 detU).mp h
    rw [List.mem_singleton.mp hp] at hlt
    revert hlt
    decide

/-- C2, counterexample: with gallery `["Alice"]` and two far-apart
detections both matching Alice at distance 0, the roster holds two
Present records attributable to the single gallery identity — not
exactly `|G| = 1` Present-or-Absent records. -/
theorem c2_completeness_counterexample :
    process_class_photo galA [detP, detP'] = some [recPA, recPB] ∧
    galleryPA galA [recPA, recPB] = 2 ∧ galA.length = 1 :=
  ⟨proc_two_present, by decide, rfl⟩

/-- C2, amended: the roster is a permutation of one record per surviving
detection plus one Absent record per gallery entry whose name was not
recognized, and its length is that sum; the Present-or-Absent records
attributable to gallery identities number exactly `|G|` under the extra
hypotheses (forced by the counterexample) that gallery names are
distinct and no name is Present-accepted by two detections (plus the
alignment of distance lists with the gallery). -/
theorem c2_completeness_amended (g : List String) (dets : List Detection)
    (hd : dets ≠ []) (hg : g ≠ [])
    (hwf : ∀ d ∈ dets, ∀ ds, d.cmp = some ds → ds.length = g.length)
    (hgn : g.Nodup)
    (hrn : (processFaces g 0 dets initState).recognized.Nodup) :
    ∃ roster, process_class_photo g dets = some roster ∧
      roster.Perm ((processFaces g 0 dets initState).results ++
        absentRecords g (processFaces g 0 dets initState).recognized) ∧
      roster.length = (processFaces g 0 dets initState).results.length +
        (g.filter (fun n => !((processFaces g 0 dets initState).recognized.contains n))).length ∧
      galleryPA g roster = g.length := by
  refine ⟨sortRoster (rawRoster g dets), process_class_photo_eq_some g dets hd hg, ?_, ?_, ?_⟩
  · rw [← rawRoster_eq]
    exact sortRoster_perm _
  · rw [(sortRoster_perm _).length_eq, rawRoster_eq, List.length_append]
    simp [absentRecords]
  · have hflt := ((sortRoster_perm (rawRoster g dets)).filter
      (fun r => (r.status == Status.Present || r.status == Status.Absent) &&
        g.contains r.name)).length_eq
    unfold galleryPA
    rw [hflt]
    exact galleryPA_rawRoster g dets hwf hgn hrn

/-- C2, witness for the amended statement: the one-Present run on the
singleton gallery. -/
theorem c2_completeness_amended_witness :
    ∃ roster, process_class_photo galA [detP] = some roster ∧
      roster.Perm ((processFaces galA 0 [detP] initState).results ++
        absentRecords galA (processFaces galA 0 [detP] initState).recognized) ∧
      roster.length = (processFaces galA 0 [detP] initState).results.length +
        (galA.filter
          (fun n => !((processFaces galA 0 [detP] initState).recognized.contains n))).length ∧
      galleryPA galA roster = galA.length := by
  apply c2_completeness_amended galA [detP] (by simp) (by simp [galA])
  · intro d hd ds hds
    rw [List.mem_singleton.mp hd] at hds
    cases hds
    rfl
  · simp [galA]
  · rw [run_one_present]
    simp

/-- C3: for a surviving detection the coarse 0.5-tolerance test is
evaluated first; if nothing passes, the record is Unknown with the
synthetic name `Unknown Person (i+1)` and bare Low confidence; if
something passes, the first globally minimum-distance entry is chosen
(the value at `argmin` is a member attaining the global minimum), the
score is 1 minus that minimum, and the record is Present with label
`High (score)` exactly when the score exceeds 0.6, else Unknown with the
matched name and label `Low (score)`. -/
theorem c3_matcher (g : List String) (s : LoopState) (i : Nat) (d : Detection)
    (ds : List ℚ) (hc : d.cmp = some ds)
    (hd : isDuplicate d.box s.processed = false) :
    ((∀ x ∈ ds, ¬x ≤ (0.5 : ℚ)) →
      faceStep g s i d = { s with results := s.results ++
        [⟨"Unknown Person " ++ toString (i + 1), .Unknown, .lowNoScore, some d.box, none⟩] }) ∧
    ((∃ x ∈ ds, x ≤ (0.5 : ℚ)) →
      argminIdx ds < ds.length ∧
      ds.getD (argminIdx ds) 0 ∈ ds ∧
      (∀ x ∈ ds, ds.getD (argminIdx ds) 0 ≤ x) ∧
      (((0.6 : ℚ) < 1 - ds.getD (argminIdx ds) 0 →
        faceStep g s i d = ⟨s.results ++ [⟨g.getD (argminIdx ds) "", .Present,
            .high (1 - ds.getD (argminIdx ds) 0), some d.box, none⟩],
          s.recognized ++ [g.getD (argminIdx ds) ""], s.processed ++ [d.box]⟩) ∧
       (¬(0.6 : ℚ) < 1 - ds.getD (argminIdx ds) 0 →
        faceStep g s i d = { s with results := s.results ++
          [⟨g.getD (argminIdx ds) "", .Unknown,
            .low (1 - ds.getD (argminIdx ds) 0), some d.box, none⟩] }))) := by
  unfold faceStep
  rw [if_neg (by simp [hd]), hc]
  dsimp only
  constructor
  · intro hall
    rw [if_neg (by
      simp only [List.any_eq_true, decide_eq_true_eq, not_exists, not_and]
      exact hall)]
  · intro hex
    obtain ⟨x, hx, hx5⟩ := hex
    have hne : ds ≠ [] := List.ne_nil_of_mem hx
    have hlt := argminIdx_lt ds hne
    have hany : ds.any (fun x => decide (x ≤ (0.5 : ℚ))) = true := by
      simp only [List.any_eq_true, decide_eq_true_eq]
      exact ⟨x, hx, hx5⟩
    rw [if_pos hany]
    refine ⟨hlt, ?_, fun y hy => argminIdx_min ds y hy, ?_, ?_⟩
    · rw [List.getD_eq_getElem ds 0 hlt]
      exact List.getElem_mem hlt
    · intro hsc
      rw [if_pos hsc]
    · intro hsc
      rw [if_neg hsc]

/-- C3, witness: the perfect match at distance 0 is accepted as Alice
with score 1. -/
theorem c3_matcher_witness :
    detP.cmp = some [0] ∧ isDuplicate detP.box initState.processed = false ∧
    faceStep galA initState 0 detP = ⟨[recPA], ["Alice"], [boxA]⟩ := by
  refine ⟨rfl, rfl, ?_⟩
  have h := (c3_matcher galA initState 0 detP [0] rfl rfl).2
    ⟨0, List.mem_singleton_self 0, by norm_num⟩
  have h2 := h.2.2.2.1 (by norm_num [argminIdx, argminAux])
  rw [h2]
  norm_num [argminIdx, argminAux, recPA, galA, initState, detP]

/-- C4, counterexample: the "no gallery" run and the "no faces" run
return the very same value `none` — the caller cannot tell the two
outcomes apart from the returned result. -/
theorem c4_sentinel_counterexample :
    process_class_photo [] [detE0] = none ∧
    process_class_photo galA [] = none ∧
    process_class_photo [] [detE0] = process_class_photo galA [] :=
  ⟨rfl, rfl, rfl⟩

/-- C4, amended: with an empty gallery or zero detections the function
returns `None`, a sentinel distinct from every roster it can return (a
returned roster is never empty); but the two failure outcomes are the
same `None`, and the caller tells them apart only by separately
inspecting whether the gallery is empty (app.py lines 134-137), not from
the returned value. -/
theorem c4_no_roster_amended :
    (∀ (g : List String) (dets : List Detection), g = [] ∨ dets = [] →
      process_class_photo g dets = none) ∧
    (∀ (g : List String) (dets : List Detection) (roster : List AttendanceRecord),
      process_class_photo g dets = some roster → roster ≠ []) := by
  constructor
  · rintro g dets (rfl | rfl)
    · unfold process_class_photo
      by_cases hd : dets.isEmpty <;> simp [hd]
    · rfl
  · intro g dets roster h
    obtain ⟨hd, hg, hroster⟩ := process_class_photo_some_inv g dets roster h
    have hne := rawRoster_ne_nil g dets hg
    rw [hroster]
    intro hnil
    apply hne
    have hlen := (sortRoster_perm (rawRoster g dets)).length_eq
    rw [hnil] at hlen
    exact List.length_eq_zero.mp hlen.symm

/-- C4, witness for the amended statement. -/
theorem c4_no_roster_amended_witness :
    (galA = [] ∨ ([] : List Detection) = []) ∧
    process_class_photo galA [] = none ∧
    process_class_photo galA [detP] = some [recPA] ∧
    ([recPA] : List AttendanceRecord) ≠ [] :=
  ⟨Or.inr rfl, c4_no_roster_amended.1 galA [] (Or.inr rfl), proc_one_present,
    c4_no_roster_amended.2 galA [detP] [recPA] proc_one_present⟩

/-- C5: on a successful run the function returns only the bare sorted
record list; no record carries a `summary_info` key, so the upload
handler's count extraction yields all zeros even though the roster here
plainly contains one Present record.  This contradicts both the claim
and the caller's own expectations (app.py lines 76-88). -/
theorem c5_missing_summary :
    process_class_photo galA [detP] = some [recPA] ∧
    recPA.summary_info = none ∧
    uploadCounts [recPA] = (0, 0, 0, 0, 0, 0) ∧
    [recPA].filter (fun r => r.status == Status.Present) = [recPA] :=
  ⟨proc_one_present, rfl, rfl, by decide⟩

/-- C6: in every returned roster, no name is both Present and Absent,
and a name has an Absent record exactly when it is a gallery name that no
detection marked Present. -/
theorem c6_mutual_exclusion (g : List String) (dets : List Detection)
    (roster : List AttendanceRecord) (h : process_class_photo g dets = some roster) :
    ∀ n : String,
      ¬((∃ r ∈ roster, r.status = Status.Present ∧ r.name = n) ∧
        (∃ r ∈ roster, r.status = Status.Absent ∧ r.name = n)) ∧
      ((∃ r ∈ roster, r.status = Status.Absent ∧ r.name = n) ↔
        n ∈ g ∧ ¬∃ r ∈ roster, r.status = Status.Present ∧ r.name = n) := by
  intro n
  obtain ⟨-, -, hroster⟩ := process_class_photo_some_inv g dets roster h
  obtain ⟨hR, -, hNA⟩ := processFaces_invariants g dets
  have hmem : ∀ r : AttendanceRecord, r ∈ roster ↔ r ∈ rawRoster g dets := by
    intro r
    rw [hroster]
    exact (sortRoster_perm _).mem_iff
  set st := processFaces g 0 dets initState with hst
  have habs : (∃ r ∈ roster, r.status = Status.Absent ∧ r.name = n) ↔
      n ∈ g ∧ ¬n ∈ st.recognized := by
    constructor
    · rintro ⟨r, hr, hA, rfl⟩
      have hr' := (hmem r).mp hr
      rw [rawRoster_eq, ← hst] at hr'
      rcases List.mem_append.mp hr' with h' | h'
      · exact absurd hA (hNA r h').1
      · simp only [absentRecords, List.mem_map] at h'
        obtain ⟨m, hm, hrec⟩ := h'
        obtain ⟨hmg, hmc⟩ := List.mem_filter.mp hm
        have hname : r.name = m := by rw [← hrec]
        rw [hname]
        refine ⟨hmg, fun hcon => ?_⟩
        simp only [Bool.not_eq_true'] at hmc
        have hcon' : st.recognized.contains m = true := List.elem_iff.mpr hcon
        rw [hmc] at hcon'
        exact Bool.false_ne_true hcon'
    · rintro ⟨hng, hnrec⟩
      refine ⟨⟨n, Status.Absent, Confidence.na, none, none⟩, ?_, rfl, rfl⟩
      rw [hmem, rawRoster_eq, ← hst]
      refine List.mem_append.mpr (Or.inr ?_)
      simp only [absentRecords, List.mem_map]
      refine ⟨n, List.mem_filter.mpr ⟨hng, ?_⟩, rfl⟩
      simp only [Bool.not_eq_true']
      by_contra hcon
      have : st.recognized.contains n = true := by
        rcases hb : st.recognized.contains n with _ | _
        · exact absurd hb hcon
        · rfl
      exact hnrec (List.elem_iff.mp this)
  have hpres : (∃ r ∈ roster, r.status = Status.Present ∧ r.name = n) ↔
      n ∈ st.recognized := by
    constructor
    · rintro ⟨r, hr, hP, rfl⟩
      have hr' := (hmem r).mp hr
      rw [rawRoster_eq, ← hst] at hr'
      rcases List.mem_append.mp hr' with h' | h'
      · rw [hR]
        exact List.mem_map.mpr ⟨r, List.mem_filter.mpr ⟨h', by simp [hP]⟩, rfl⟩
      · simp only [absentRecords, List.mem_map] at h'
        obtain ⟨m, -, hrec⟩ := h'
        rw [← hrec] at hP
        cases hP
    · intro hn
      rw [hR] at hn
      obtain ⟨r, hr, hrn⟩ := List.mem_map.mp hn
      obtain ⟨hres, hPb⟩ := List.mem_filter.mp hr
      refine ⟨r, ?_, by simpa using hPb, hrn⟩
      rw [hmem, rawRoster_eq, ← hst]
      exact List.mem_append.mpr (Or.inl hres)
  constructor
  · rintro ⟨hp, ha⟩
    exact (habs.mp ha).2 (hpres.mp hp)
  · rw [habs, hpres]

/-- C6, witness: in the one-Present run, Alice has no Absent record. -/
theorem c6_mutual_exclusion_witness :
    process_class_photo galA [detP] = some [recPA] ∧
    ¬∃ r ∈ ([recPA] : List AttendanceRecord),
      r.status = Status.Absent ∧ r.name = "Alice" := by
  refine ⟨proc_one_present, fun habs => ?_⟩
  have h := (c6_mutual_exclusion galA [detP] [recPA] proc_one_present "Alice").2.mp habs
  exact h.2 ⟨recPA, List.mem_singleton_self recPA, rfl, rfl⟩

/-- C7: the returned roster is sorted by the fixed priority Present,
Absent, Unknown, Error, and within each single status the records appear
exactly as they were produced (detection records in detection order,
then Absent records in gallery order) — the sort is stable. -/
theorem c7_stable_status_sort (g : List String) (dets : List Detection)
    (roster : List AttendanceRecord) (h : process_class_photo g dets = some roster) :
    roster.Pairwise (fun a b => statusPriority a.status ≤ statusPriority b.status) ∧
    ∀ st : Status, roster.filter (fun r => r.status == st) =
      (rawRoster g dets).filter (fun r => r.status == st) := by
  obtain ⟨-, -, hroster⟩ := process_class_photo_some_inv g dets roster h
  rw [hroster]
  exact ⟨sortRoster_sorted _, fun st => sortRoster_filter _ st⟩

/-- C7, witness: the Present-then-Error roster is emitted sorted. -/
theorem c7_stable_status_sort_witness :
    process_class_photo galA [detP, detE] = some [recPA, recE2] ∧
    ([recPA, recE2] : List AttendanceRecord).Pairwise
      (fun a b => statusPriority a.status ≤ statusPriority b.status) :=
  ⟨proc_present_error,
    (c7_stable_status_sort galA [detP, detE] [recPA, recE2] proc_present_error).1⟩

/-- C8: when the comparison for one surviving detection raises, exactly
one Error record for that detection is appended and nothing else in the
loop state changes; consequently the records of all remaining detections
are exactly those produced from the same `recognized`/`processed` state,
so no single-face failure aborts the run or alters other detections'
records. -/
theorem c8_per_face_error (g : List String) (s : LoopState) (i : Nat) (d : Detection)
    (hc : d.cmp = none) (hd : isDuplicate d.box s.processed = false) :
    faceStep g s i d = ⟨s.results ++ [errorRecord i d.box], s.recognized, s.processed⟩ ∧
    ∀ rest : List Detection,
      (processFaces g (i + 1) rest (faceStep g s i d)).results =
        s.results ++ errorRecord i d.box ::
          (processFaces g (i + 1) rest ⟨[], s.recognized, s.processed⟩).results := by
  have hstep : faceStep g s i d =
      ⟨s.results ++ [errorRecord i d.box], s.recognized, s.processed⟩ := by
    unfold faceStep
    rw [if_neg (by simp [hd]), hc]
  refine ⟨hstep, fun rest => ?_⟩
  rw [hstep]
  have hacc := processFaces_results_acc g rest (i + 1)
    ⟨s.results ++ [errorRecord i d.box], s.recognized, s.processed⟩
  simpa [List.append_assoc] using hacc

/-- C8, witness: after Alice was accepted, the raising second detection
yields exactly the record `Error 2` and leaves the state otherwise
untouched. -/
theorem c8_per_face_error_witness :
    detE.cmp = none ∧ isDuplicate detE.box [boxA] = false ∧
    faceStep galA ⟨[recPA], ["Alice"], [boxA]⟩ 1 detE =
      ⟨[recPA, recE2], ["Alice"], [boxA]⟩ := by
  refine ⟨rfl, by decide, ?_⟩
  rw [(c8_per_face_error galA ⟨[recPA], ["Alice"], [boxA]⟩ 1 detE rfl (by decide)).1]
  decide

/-- C9: reconciliation is a pure function of the gallery, the detections
and the (fixed) external comparison outcomes: two runs on the same
inputs return the same roster, records and order included. -/
theorem c9_deterministic (g : List String) (dets : List Detection)
    (r1 r2 : Option (List AttendanceRecord))
    (h1 : process_class_photo g dets = r1) (h2 : process_class_photo g dets = r2) :
    r1 = r2 := by
  rw [← h1, ← h2]

/-- C9, witness: two runs on the one-Present input agree. -/
theorem c9_deterministic_witness :
    (some [recPA] : Option (List AttendanceRecord)) = some [recPA] :=
  c9_deterministic galA [detP] (some [recPA]) (some [recPA])
    proc_one_present proc_one_present

/-- C10: any stored row for a date whose status string is outside
Present/Absent/Unknown — such as the Error records process_class_photo
can produce and save_attendance stores verbatim — makes
get_attendance_by_date return the empty list for that date, which is
exactly what it returns for a date with no rows at all; shown both in
general and on the end-to-end Present+Error run. -/
theorem c10_error_status_hides_date :
    (∀ (rows : List CsvRow) (date : String),
      (∃ r ∈ rows, r.date = date ∧ statusKey3 r.status = none) →
      get_attendance_by_date rows date = []) ∧
    (∀ (rows : List CsvRow) (date : String),
      (∀ r ∈ rows, r.date ≠ date) → get_attendance_by_date rows date = []) ∧
    process_class_photo galA [detP, detE] = some [recPA, recE2] ∧
    ∀ (renderConf : Confidence → String) (ts : String),
      get_attendance_by_date
        (save_attendance "2024-05-01" [recPA, recE2] renderConf ts) "2024-05-01" = [] := by
  have hbad : ∀ (rows : List CsvRow) (date : String),
      (∃ r ∈ rows, r.date = date ∧ statusKey3 r.status = none) →
      get_attendance_by_date rows date = [] := by
    intro rows date ⟨r, hr, hdate, hkey⟩
    unfold get_attendance_by_date
    have hrmem : r ∈ rows.filter (fun r => r.date == date) :=
      List.mem_filter.mpr ⟨hr, by simp [hdate]⟩
    rw [if_neg (by
      simp only [List.isEmpty_iff]
      exact fun hnil => by simp [hnil] at hrmem)]
    rw [if_neg (by
      simp only [List.all_eq_true, not_forall]
      refine ⟨⟨r.name, r.status, r.confidence, r.timestamp⟩, ?_, by simp [hkey]⟩
      exact List.mem_map.mpr ⟨r, hrmem, rfl⟩)]
  refine ⟨hbad, ?_, proc_present_error, ?_⟩
  · intro rows date hnone
    unfold get_attendance_by_date
    rw [if_pos (by
      simp only [List.isEmpty_iff, List.filter_eq_nil_iff]
      intro r hr
      simp [hnone r hr])]
  · intro renderConf ts
    apply hbad
    refine ⟨⟨"2024-05-01", "Error 2", "Error", renderConf Confidence.na, ts⟩, ?_, rfl, rfl⟩
    simp [save_attendance, recE2, statusStr]

/-- C10, witness: a single stored Error row for a date makes the lookup
of that date return the empty list. -/
theorem c10_error_status_hides_date_witness :
    get_attendance_by_date [⟨"2024-05-01", "Error 2", "Error", "N/A", "t"⟩] "2024-05-01" = [] :=
  c10_error_status_hides_date.1 [⟨"2024-05-01", "Error 2", "Error", "N/A", "t"⟩] "2024-05-01"
    ⟨⟨"2024-05-01", "Error 2", "Error", "N/A", "t"⟩, List.mem_singleton_self _, rfl, by decide⟩

end ClassAttendance
